import Mathlib

/-!
Shallow embedding of the dagstore shard lifecycle engine (files
dagstore_async.go and mount/upgrader.go) and proofs about the frozen
claims on its specification.

Conventions of the embedding:
- Go errors become the Except monad; a Go value of type error that may be
  nil becomes Except with ok for nil.
- The event-channel side effects of the async workers (queueTask,
  failShard, dispatchResult, reader.Close) are modelled as an emitted
  event trace, in the order the Go code performs them; deferred calls are
  emitted at function exit, as Go does.
- The file system is a predicate on paths (does this path exist), and
  os level outcomes that depend on the outside world (mount fetch, index
  generation) are parameters of the worker functions.
- Machine state mutated under locks is passed explicitly.
-/

namespace Dagstore

/-- Error values are carried as strings, as Go error messages. -/
abbrev Err := String

/-- Operation types of the event loop tasks, from OpType in the source. -/
inductive OpType where
  | opShardRegister
  | opShardAcquire
  | opShardRelease
  | opShardFail
  | opShardMakeAvailable
  | opShardRecover
  | opShardDestroy
  | opShardGC
  deriving DecidableEq, Repr

/-- Shard lifecycle states, from ShardState in the source. -/
inductive ShardState where
  | shardStateNew
  | shardStateInitializing
  | shardStateAvailable
  | shardStateServing
  | shardStateErrored
  | shardStateRecovering
  | shardStateDestroying
  deriving DecidableEq, Repr

open ShardState

/-!
Acquire worker: acquireAsync in dagstore_async.go.

The worker runs after the event loop accepted an Acquire and incremented
the refcount. It fetches a reader from the mount under the fetch
throttle, loads the full index, builds the accessor, and dispatches the
result. Its externally visible behaviour is the trace of queue, close
and dispatch actions it performs, in program order.
-/

/-- Events emitted by the acquire worker, in the order the Go code
performs them. -/
inductive AcqEvent where
  | queuedRelease
  | queuedFail
  | closedReader
  | dispatchedErr
  | dispatchedAccessor
  deriving DecidableEq, Repr

/-- Modelled from the spec: NewShardAccessor is code of this repository
that is not under src (only its caller acquireAsync is). Per the spec,
the acquire worker builds the accessor and dispatches the accessor with
a nil error, so the constructor is modelled as total: it always yields
an accessor. -/
def NewShardAccessor (_reader _idx : Unit) : Unit := ()

/-- Embedding of acquireAsync. The two outside-world steps are the mount
fetch (under the fetch throttle; the throttler runs the function and
returns its result) and the full-index load; both are parameters. The
result is the emitted event trace. -/
def acquireAsync (fetchRes : Except Err Unit) (indexRes : Except Err Unit) :
    List AcqEvent :=
  match fetchRes with
  | .error _ =>
      -- release the shard to undo the optimistic refcount increment,
      -- then fail the shard, then send the error to the caller.
      [.queuedRelease, .queuedFail, .dispatchedErr]
  | .ok reader =>
      match indexRes with
      | .error _ =>
          -- close the reader first, then the same compensation sequence.
          [.closedReader, .queuedRelease, .queuedFail, .dispatchedErr]
      | .ok idx =>
          let _sa := NewShardAccessor reader idx
          [.dispatchedAccessor]

/-!
Initialize worker: initializeShard in dagstore_async.go.

It fetches a reader under the fetch throttle, reads or generates the
index under the index throttle, stores the index in the repository, and
queues MakeAvailable; any failure queues Fail instead. The deferred
reader close runs at function exit, after the queueing.
-/

/-- Events emitted by the initialize worker, in program order. The three
attempt events mark the throttled fetch, the throttled read-or-generate
of the index, and the store into the index repository. -/
inductive InitEvent where
  | fetchAttempt
  | genIndexAttempt
  | addIndexAttempt
  | queuedFail
  | queuedMakeAvailable
  | closedReader
  deriving DecidableEq, Repr

/-- Embedding of initializeShard. Parameters are the outcomes of the
mount fetch, the index read-or-generate, and the repository store. -/
def initializeShard (fetchRes : Except Err Unit) (genRes : Except Err Unit)
    (addRes : Except Err Unit) : List InitEvent :=
  match fetchRes with
  | .error _ =>
      -- fetch failed before the deferred close was installed.
      [.fetchAttempt, .queuedFail]
  | .ok _ =>
      -- defer reader.Close() is installed here; it fires at exit.
      match genRes with
      | .error _ =>
          [.fetchAttempt, .genIndexAttempt, .queuedFail, .closedReader]
      | .ok _ =>
          match addRes with
          | .error _ =>
              [.fetchAttempt, .genIndexAttempt, .addIndexAttempt,
               .queuedFail, .closedReader]
          | .ok _ =>
              [.fetchAttempt, .genIndexAttempt, .addIndexAttempt,
               .queuedMakeAvailable, .closedReader]

/-!
Startup state reset: the loop over the restored catalog in NewDAGStore.

For every restored shard record: a record in Serving is downgraded to
Available; a record in Initializing is promoted to Available when the
index repository reports the index exists, and otherwise reset to New
with a Register task queued.
-/

/-- Result of StatFullIndex as consumed by NewDAGStore: the call either
errors or reports existence. The promotion condition in the source is
that the call returned no error and Exists is true. -/
structure IndexStat where
  statOk : Bool
  exists_ : Bool
  deriving DecidableEq, Repr

/-- Embedding of the per-shard reset logic in NewDAGStore. Returns the
state after the reset and whether an OpShardRegister task is queued for
this shard. -/
def resetShard (istat : IndexStat) (s : ShardState) : ShardState × Bool :=
  -- reset to available, as there are no active acquirers at start.
  let s1 := if s = shardStateServing then shardStateAvailable else s
  -- handle shards that were initializing at shutdown.
  if s1 = shardStateInitializing then
    if istat.statOk && istat.exists_ then
      (shardStateAvailable, false)
    else
      (shardStateNew, true)
  else
    (s1, false)

/-!
State restore: restoreState in dagstore_async.go.

The datastore query yields a sequence of key-value results; each value
is unmarshalled into a shard record; a record that fails to unmarshal is
logged and skipped; well-formed records are inserted into the shards map
keyed by the key stored inside the record.
-/

/-- Shard record as restored from the datastore: the key it carries and
its persisted state. -/
structure ShardRec where
  key : String
  state : ShardState
  deriving DecidableEq, Repr

/-- Go map insert: any earlier binding of the key is replaced. -/
def mapInsert (m : List (String × ShardRec)) (k : String) (v : ShardRec) :
    List (String × ShardRec) :=
  m.filter (fun p => p.1 ≠ k) ++ [(k, v)]

/-- Loop body of restoreState: iterate the query results, skip records
whose value fails to unmarshal, insert the rest into the map. -/
def restoreLoop (unmarshal : String → Option ShardRec) :
    List (String × String) → List (String × ShardRec) →
    List (String × ShardRec)
  | [], m => m
  | r :: rest, m =>
      match unmarshal r.2 with
      | none =>
          -- log.Warnf failed to recover state of shard; skipping
          restoreLoop unmarshal rest m
      | some s => restoreLoop unmarshal rest (mapInsert m s.key s)

/-- Embedding of restoreState. The query either fails, which is returned
as an error, or yields the listed results; the function then never
fails: unmarshalling errors are skipped. -/
def restoreState (queryRes : Except Err (List (String × String)))
    (unmarshal : String → Option ShardRec) :
    Except Err (List (String × ShardRec)) :=
  match queryRes with
  | .error e => .error ("failed to recover dagstore state from store: " ++ e)
  | .ok results => .ok (restoreLoop unmarshal results [])

/-!
Mount upgrader: mount/upgrader.go.

Paths are modelled structurally: an absolute flag plus the list of
cleaned path components. The empty transient string of the Go struct is
modelled as none.
-/

/-- Cleaned file path: absoluteness plus components. -/
structure GoPath where
  absolute : Bool
  comps : List String
  deriving DecidableEq, Repr

/-- Drop the longest common prefix of two component lists, returning
both remainders. -/
def dropCommon : List String → List String → List String × List String
  | b :: bs, t :: ts =>
      if b = t then dropCommon bs ts else (b :: bs, t :: ts)
  | bs, ts => (bs, ts)

/-- Condition under which filepath.Rel(base, targ) returns an error on a
unix system: the two cleaned paths disagree on absoluteness, or the
first differing base component is the parent marker. For any two
absolute paths free of parent markers, Rel succeeds, producing a
relative path that may climb out of base. -/
def relFails (base targ : GoPath) : Bool :=
  base.absolute != targ.absolute ||
    ((dropCommon base.comps targ.comps).1.headD "") = ".."

/-- Path p lies under directory root (or equals it). -/
def isUnderRoot (root p : GoPath) : Bool :=
  root.absolute == p.absolute && root.comps.isPrefixOf p.comps

/-- Capability description of a mount, from Info in mount/mount.go as
consumed by the upgrader. -/
structure MountInfo where
  accessSequential : Bool
  accessSeek : Bool
  accessRandom : Bool
  deriving DecidableEq, Repr

/-- State of an Upgrader: the engine root directory, the shard key, the
passthrough flag, the tracked transient path (none models the empty
string), and whether the currently installed sync.Once has already
fired. A fresh sync.Once has not fired. -/
structure Upgrader where
  rootdir : GoPath
  key : String
  passthrough : Bool
  transient : Option GoPath
  onceFired : Bool
  deriving DecidableEq, Repr

/-- Default temporary directory returned by os.TempDir. -/
def osTempDir : GoPath := ⟨true, ["tmp"]⟩

/-- Embedding of mount.Upgrade. Parameters: the capability info of the
underlying mount, the root directory (none models the empty string),
the shard key, the optional initial transient path, and the file
system existence predicate used by os.Stat on the initial path. -/
def Upgrade (info : MountInfo) (rootdir : Option GoPath) (key : String)
    (initialT : Option GoPath) (fs : GoPath → Bool) : Except Err Upgrader :=
  let rd := match rootdir with
    | none => osTempDir
    | some r => r
  let ret : Upgrader :=
    { rootdir := rd, key := key, passthrough := false,
      transient := none, onceFired := false }
  if !info.accessSequential then
    .error "underlying mount must support sequential access"
  else if info.accessSeek && info.accessRandom then
    .ok { ret with passthrough := true }
  else
    match initialT with
    | some p =>
        if fs p then .ok { ret with transient := some p } else .ok ret
    | none => .ok ret

/-- Result of one call to Upgrader.Fetch. -/
inductive FetchRes where
  | passthroughFetch
  | openedOk (p : GoPath)
  | openErr (p : Option GoPath)
  | fetchFailed (e : Err)
  deriving DecidableEq, Repr

/-- Outcome of one Fetch call: the result, whether a refetch of the
underlying mount ran during the call, and the successor state. -/
structure FetchStep where
  res : FetchRes
  refetchRan : Bool
  next : Upgrader
  deriving DecidableEq, Repr

/-- Slow path of Upgrader.Fetch, entered when the transient is absent or
its file is gone: the caller captures the current sync.Once under the
lock and invokes Do on it. If that Once has already fired, Do does not
run the closure, the closure error stays nil, and the caller proceeds
to open the unchanged transient path, which fails since the file is
missing (os.Open on the empty string also fails). If the Once has not
fired, refetch runs: on failure the captured Once is left fired and the
transient is unchanged; on success the new transient path is committed
and a fresh sync.Once is installed. The freshly written transient file
exists, so the subsequent open succeeds. -/
def fetchOnMissing (fs : GoPath → Bool) (refetchOutcome : Except Err GoPath)
    (u : Upgrader) : FetchStep :=
  if u.onceFired then
    match u.transient with
    | some t =>
        if fs t then ⟨.openedOk t, false, u⟩ else ⟨.openErr (some t), false, u⟩
    | none => ⟨.openErr none, false, u⟩
  else
    match refetchOutcome with
    | .error e =>
        ⟨.fetchFailed e, true, { u with onceFired := true }⟩
    | .ok p =>
        ⟨.openedOk p, true, { u with transient := some p, onceFired := false }⟩

/-- Embedding of Upgrader.Fetch for a single sequential call. The file
system predicate models os.Stat on the tracked transient; the refetch
outcome parameter stands for the body of refetch (temp file creation,
underlying stat, underlying fetch, copy), which depends on the outside
world. -/
def Fetch (fs : GoPath → Bool) (refetchOutcome : Except Err GoPath)
    (u : Upgrader) : FetchStep :=
  if u.passthrough then ⟨.passthroughFetch, false, u⟩
  else
    match u.transient with
    | some t =>
        if fs t then ⟨.openedOk t, false, u⟩
        else fetchOnMissing fs refetchOutcome u
    | none => fetchOnMissing fs refetchOutcome u

/-- Outcome of one DeleteTransient call: the path handed to os.Remove
when removal was attempted, whether the call returned an error, and the
successor state. -/
structure DeleteStep where
  removedPath : Option GoPath
  retErr : Bool
  next : Upgrader
  deriving DecidableEq, Repr

/-- Embedding of Upgrader.DeleteTransient. The removeFails parameter is
the outcome of os.Remove. With no tracked transient the call returns
nil. When filepath.Rel(rootdir, transient) errors the call returns nil
without deleting. Otherwise os.Remove runs on the transient and the
internal state is cleared even when removal failed. -/
def DeleteTransient (removeFails : Bool) (u : Upgrader) : DeleteStep :=
  match u.transient with
  | none => ⟨none, false, u⟩
  | some t =>
      if relFails u.rootdir t then
        ⟨none, false, u⟩
      else
        ⟨some t, removeFails, { u with transient := none }⟩

/-- Possible outcomes of a Go method call that may panic. -/
inductive CloseOutcome where
  | panicked (msg : String)
  | returned (res : Except Err Unit)
  deriving Repr

/-- Embedding of Upgrader.Close, whose body is a single panic. -/
def UpgraderClose (_u : Upgrader) : CloseOutcome :=
  .panicked "implement me"

/-!
Public API entry points: RegisterShard, AcquireShard, RecoverShard,
DestroyShard in dagstore_async.go.

Each performs a synchronous validation under the catalog lock and then
queues a task on the external channel. The catalog is modelled by its
key set; the returned list holds the operations queued on the external
channel by the call (absent engine shutdown, queueTask succeeds).
-/

/-- Synchronous errors of the public API calls. -/
inductive ApiErr where
  | shardExists
  | shardUnknown
  | upgradeFailed (e : Err)
  deriving DecidableEq, Repr

/-- Embedding of RegisterShard: duplicate keys are rejected with
ShardExists; then the mount is wrapped in an upgrader, whose error is
returned directly; otherwise the shard is added and one Register task
is queued. -/
def RegisterShard (catalog : List String) (key : String) (mnt : MountInfo)
    (transientsDir : Option GoPath) (existingTransient : Option GoPath)
    (fs : GoPath → Bool) : Except ApiErr (List OpType) :=
  if key ∈ catalog then .error .shardExists
  else
    match Upgrade mnt transientsDir key existingTransient fs with
    | .error e => .error (.upgradeFailed e)
    | .ok _ => .ok [OpType.opShardRegister]

/-- Embedding of AcquireShard: unknown keys are rejected with
ShardUnknown; otherwise one Acquire task is queued. -/
def AcquireShard (catalog : List String) (key : String) :
    Except ApiErr (List OpType) :=
  if key ∈ catalog then .ok [OpType.opShardAcquire]
  else .error .shardUnknown

/-- Embedding of RecoverShard: unknown keys are rejected with
ShardUnknown; otherwise one Recover task is queued. -/
def RecoverShard (catalog : List String) (key : String) :
    Except ApiErr (List OpType) :=
  if key ∈ catalog then .ok [OpType.opShardRecover]
  else .error .shardUnknown

/-- Embedding of DestroyShard: unknown keys are rejected with
ShardUnknown; otherwise one Destroy task is queued. -/
def DestroyShard (catalog : List String) (key : String) :
    Except ApiErr (List OpType) :=
  if key ∈ catalog then .ok [OpType.opShardDestroy]
  else .error .shardUnknown

/-!
Interleaving model of concurrent Upgrader.Fetch calls that race on the
refetch latch.

Each caller of Fetch performs two lock-protected phases. Phase one,
under the upgrader lock: stat the transient; when the file is present
open it and finish; when it is absent capture the current sync.Once.
Phase two: invoke Do on the captured Once; the first Do on a given Once
runs refetch, and a successful refetch commits the new transient and
installs a fresh Once under the lock; every other Do on that Once is a
no-op and the caller then opens the committed transient. Since the Go
sync.Once serializes the body of Do with every later Do on the same
Once, and the transient and the Once are committed under one lock
acquisition, running refetch is modelled as one atomic step: any caller
scheduled during a real refetch observes the pre-refetch state, exactly
as a caller scheduled before the atomic step does. Refetch is modelled
as succeeding, matching the claimed scenario in which waiters open the
resulting transient. Once objects are named by numeric identifiers; the
upgrader starts with Once 0 installed and each rearm installs a fresh
identifier. -/
inductive CallerPC where
  | start
  | captured (onceId : Nat)
  | doneOpenedExisting
  | doneFetched
  deriving DecidableEq, Repr

/-- Global state of the interleaving model: whether the transient file
is present, the identifier of the installed sync.Once, the set of Once
identifiers that have fired, the number of refetches performed, and the
program counter of every caller. -/
structure OnceSys where
  transientPresent : Bool
  curOnce : Nat
  fired : List Nat
  refetches : Nat
  callers : Nat → CallerPC

/-- One scheduling step of the interleaving model. -/
inductive OnceStep : OnceSys → OnceSys → Prop where
  | openExisting (s : OnceSys) (i : Nat) :
      s.callers i = .start → s.transientPresent = true →
      OnceStep s
        { s with callers := Function.update s.callers i .doneOpenedExisting }
  | captureOnce (s : OnceSys) (i : Nat) :
      s.callers i = .start → s.transientPresent = false →
      OnceStep s
        { s with callers := Function.update s.callers i (.captured s.curOnce) }
  | onceRun (s : OnceSys) (i oid : Nat) :
      s.callers i = .captured oid → oid ∉ s.fired →
      OnceStep s
        { transientPresent := true, curOnce := s.curOnce + 1,
          fired := oid :: s.fired, refetches := s.refetches + 1,
          callers := Function.update s.callers i .doneFetched }
  | onceSkip (s : OnceSys) (i oid : Nat) :
      s.callers i = .captured oid → oid ∈ s.fired →
      OnceStep s { s with callers := Function.update s.callers i .doneFetched }

/-- Start state: the transient is missing, Once 0 is installed and has
not fired, no refetch has run, and every caller is about to enter
Fetch. -/
def onceInit : OnceSys :=
  { transientPresent := false, curOnce := 0, fired := [],
    refetches := 0, callers := fun _ => .start }

/-- Reachability from the start state. -/
def OnceReach (s : OnceSys) : Prop :=
  Relation.ReflTransGen OnceStep onceInit s

/-- Inductive invariant of the interleaving model: only Once 0 ever
fires, the refetch count equals one exactly when Once 0 has fired, the
transient is present exactly when Once 0 has fired, every captured
identifier is 0, and a caller that went through Do finished only after
Once 0 fired. -/
structure OnceInv (s : OnceSys) : Prop where
  firedSub : ∀ x ∈ s.fired, x = 0
  countFired : 0 ∈ s.fired → s.refetches = 1
  countUnfired : 0 ∉ s.fired → s.refetches = 0
  curOnceEq : s.curOnce = s.refetches
  transIff : s.transientPresent = true ↔ 0 ∈ s.fired
  capZero : ∀ i oid, s.callers i = .captured oid → oid = 0
  doneFet : ∀ i, s.callers i = .doneFetched → 0 ∈ s.fired

/-- Concrete two-caller schedule: both callers find the transient
missing and capture Once 0, caller 0 runs the refetch, caller 1 skips
and opens the committed transient. -/
def onceDemo1 : OnceSys :=
  { onceInit with
    callers := Function.update onceInit.callers 0 (.captured 0) }

/-- Second state of the concrete schedule. -/
def onceDemo2 : OnceSys :=
  { onceDemo1 with
    callers := Function.update onceDemo1.callers 1 (.captured 0) }

/-- Third state of the concrete schedule: caller 0 ran the refetch. -/
def onceDemo3 : OnceSys :=
  { transientPresent := true, curOnce := 1, fired := [0], refetches := 1,
    callers := Function.update onceDemo2.callers 0 .doneFetched }

/-- Final state of the concrete schedule: caller 1 skipped the fired
Once and finished. -/
def onceDemo4 : OnceSys :=
  { onceDemo3 with
    callers := Function.update onceDemo3.callers 1 .doneFetched }

/-!
Concrete inputs used by counterexamples and witnesses.
-/

/-- Mount with sequential access only. -/
def seqMount : MountInfo := ⟨true, false, false⟩

/-- Mount without sequential access: Upgrade rejects it. -/
def nonSeqMount : MountInfo := ⟨false, false, false⟩

/-- Upgrader whose tracked transient lies outside its root directory:
the root is the absolute directory a/b while the transient is the
absolute path c/d. -/
def strayUpgrader : Upgrader :=
  { rootdir := ⟨true, ["a", "b"]⟩, key := "k", passthrough := false,
    transient := some ⟨true, ["c", "d"]⟩, onceFired := false }

/-- Fresh non-passthrough upgrader with no transient yet. -/
def wedgeU0 : Upgrader :=
  { rootdir := ⟨true, ["root"]⟩, key := "k", passthrough := false,
    transient := none, onceFired := false }

/-- First Fetch on wedgeU0: the transient is missing, the refetch runs
and fails with a network error. -/
def wedgeStep1 : FetchStep :=
  Fetch (fun _ => false) (Except.error "no route") wedgeU0

/-- Second Fetch, after the failed refetch, with an underlying mount
that would now deliver the data: a fresh refetch would succeed and
produce the transient root/t1. -/
def wedgeStep2 : FetchStep :=
  Fetch (fun _ => false) (Except.ok ⟨true, ["root", "t1"]⟩) wedgeStep1.next

/-!
Theorems about the claims.
-/

/-- C1: every failure path of the acquire worker compensates the
optimistic refcount increment. On mount fetch failure the worker queues
Release, then Fail, then dispatches the error; on index load failure
after a successful fetch it first closes the reader and then performs
the same Release, Fail, dispatch sequence; every trace other than the
successful accessor dispatch contains the queued Release. -/
theorem acquireAsync_failure_compensates (f ix : Except Err Unit) :
    (∀ e, f = Except.error e →
      acquireAsync f ix =
        [AcqEvent.queuedRelease, AcqEvent.queuedFail, AcqEvent.dispatchedErr]) ∧
    (∀ r e, f = Except.ok r → ix = Except.error e →
      acquireAsync f ix =
        [AcqEvent.closedReader, AcqEvent.queuedRelease, AcqEvent.queuedFail,
         AcqEvent.dispatchedErr]) ∧
    (acquireAsync f ix ≠ [AcqEvent.dispatchedAccessor] →
      AcqEvent.queuedRelease ∈ acquireAsync f ix) := by
  cases f <;> cases ix <;> simp [acquireAsync]

/-- C1 witness: concrete fetch failure produces the compensation
sequence. -/
theorem acquireAsync_failure_compensates_witness :
    acquireAsync (Except.error "no route") (Except.ok ()) =
      [AcqEvent.queuedRelease, AcqEvent.queuedFail, AcqEvent.dispatchedErr] :=
  (acquireAsync_failure_compensates (Except.error "no route")
    (Except.ok ())).1 "no route" rfl

/-- C5: the initialize worker performs fetch, read-or-generate of the
index, store of the index, and queues MakeAvailable, in that order; on
any failure it queues Fail instead and MakeAvailable is never queued
alongside a failure. -/
theorem initializeShard_ordering (f g a : Except Err Unit) :
    (f = Except.ok () → g = Except.ok () → a = Except.ok () →
      initializeShard f g a =
        [InitEvent.fetchAttempt, InitEvent.genIndexAttempt,
         InitEvent.addIndexAttempt, InitEvent.queuedMakeAvailable,
         InitEvent.closedReader]) ∧
    (∀ e, f = Except.error e →
      initializeShard f g a = [InitEvent.fetchAttempt, InitEvent.queuedFail]) ∧
    (∀ e, f = Except.ok () → g = Except.error e →
      initializeShard f g a =
        [InitEvent.fetchAttempt, InitEvent.genIndexAttempt,
         InitEvent.queuedFail, InitEvent.closedReader]) ∧
    (∀ e, f = Except.ok () → g = Except.ok () → a = Except.error e →
      initializeShard f g a =
        [InitEvent.fetchAttempt, InitEvent.genIndexAttempt,
         InitEvent.addIndexAttempt, InitEvent.queuedFail,
         InitEvent.closedReader]) ∧
    (InitEvent.queuedMakeAvailable ∈ initializeShard f g a →
      InitEvent.queuedFail ∉ initializeShard f g a ∧
        f = Except.ok () ∧ g = Except.ok () ∧ a = Except.ok ()) := by
  cases f <;> cases g <;> cases a <;> simp [initializeShard]

/-- C5 witness: with all steps succeeding the worker queues
MakeAvailable after the three steps, then runs the deferred close. -/
theorem initializeShard_ordering_witness :
    initializeShard (Except.ok ()) (Except.ok ()) (Except.ok ()) =
      [InitEvent.fetchAttempt, InitEvent.genIndexAttempt,
       InitEvent.addIndexAttempt, InitEvent.queuedMakeAvailable,
       InitEvent.closedReader] :=
  (initializeShard_ordering (Except.ok ()) (Except.ok ())
    (Except.ok ())).1 rfl rfl rfl

/-- C4: the startup reset downgrades Serving to Available, promotes
Initializing to Available when the index repository reports the index
exists, resets Initializing to New with a queued Register otherwise,
and afterwards no shard is in Initializing or Serving. -/
theorem restart_resets_inflight_states (istat : IndexStat) (s : ShardState) :
    (resetShard istat s).1 ≠ ShardState.shardStateInitializing ∧
    (resetShard istat s).1 ≠ ShardState.shardStateServing ∧
    (s = ShardState.shardStateServing →
      resetShard istat s = (ShardState.shardStateAvailable, false)) ∧
    (s = ShardState.shardStateInitializing →
      (istat.statOk && istat.exists_) = true →
      resetShard istat s = (ShardState.shardStateAvailable, false)) ∧
    (s = ShardState.shardStateInitializing →
      (istat.statOk && istat.exists_) = false →
      resetShard istat s = (ShardState.shardStateNew, true)) := by
  obtain ⟨so, se⟩ := istat
  cases so <;> cases se <;> cases s <;> decide

/-- C4 witness: an Initializing record whose index stat reports no
index is reset to New and queued for registration. -/
theorem restart_resets_inflight_states_witness :
    resetShard ⟨false, false⟩ ShardState.shardStateInitializing =
      (ShardState.shardStateNew, true) :=
  (restart_resets_inflight_states ⟨false, false⟩
    ShardState.shardStateInitializing).2.2.2.2 rfl rfl

/-- C9: Upgrader.Close panics unconditionally; it never returns a value
or an error. -/
theorem upgraderClose_always_panics (u : Upgrader) :
    UpgraderClose u = CloseOutcome.panicked "implement me" ∧
    ∀ r, UpgraderClose u ≠ CloseOutcome.returned r :=
  ⟨rfl, fun _ h => CloseOutcome.noConfusion h⟩

/-- C9 witness: Close on a concrete upgrader panics. -/
theorem upgraderClose_always_panics_witness :
    UpgraderClose wedgeU0 = CloseOutcome.panicked "implement me" :=
  (upgraderClose_always_panics wedgeU0).1

/-- Keys present after a Go map insert: the inserted key joins the key
set, every other key is preserved. -/
theorem mapInsert_keys (m : List (String × ShardRec)) (k k1 : String)
    (v : ShardRec) :
    k1 ∈ (mapInsert m k v).map Prod.fst ↔ k1 ∈ m.map Prod.fst ∨ k1 = k := by
  by_cases hk : k1 = k <;> simp [mapInsert, hk]

/-- Keys present after the restore loop: a key is in the resulting map
exactly when it was in the accumulator or some result unmarshals to a
record carrying it. -/
theorem restoreLoop_keys (u : String → Option ShardRec)
    (rs : List (String × String)) (m : List (String × ShardRec))
    (k : String) :
    k ∈ (restoreLoop u rs m).map Prod.fst ↔
      k ∈ m.map Prod.fst ∨ ∃ p ∈ rs, ∃ s, u p.2 = some s ∧ s.key = k := by
  induction rs generalizing m with
  | nil => simp [restoreLoop]
  | cons r rest ih =>
      simp only [restoreLoop]
      cases hu : u r.2 with
      | none =>
          rw [ih]
          constructor
          · rintro (hm | ⟨p, hp, hs⟩)
            · exact Or.inl hm
            · exact Or.inr ⟨p, List.mem_cons_of_mem r hp, hs⟩
          · rintro (hm | ⟨p, hp, s2, hs2, hk⟩)
            · exact Or.inl hm
            · rcases List.mem_cons.mp hp with rfl | hp2
              · rw [hu] at hs2; cases hs2
              · exact Or.inr ⟨p, hp2, s2, hs2, hk⟩
      | some s =>
          rw [ih, mapInsert_keys]
          constructor
          · rintro ((hm | hk) | ⟨p, hp, hs⟩)
            · exact Or.inl hm
            · exact Or.inr ⟨r, List.mem_cons_self r rest, s, hu, hk.symm⟩
            · exact Or.inr ⟨p, List.mem_cons_of_mem r hp, hs⟩
          · rintro (hm | ⟨p, hp, s2, hs2, hk⟩)
            · exact Or.inl (Or.inl hm)
            · rcases List.mem_cons.mp hp with rfl | hp2
              · rw [hu] at hs2
                cases hs2
                exact Or.inl (Or.inr hk.symm)
              · exact Or.inr ⟨p, hp2, s2, hs2, hk⟩

/-- C7: restoring from a successful datastore query never fails; a
record whose value fails to unmarshal is skipped, and the restored
catalog holds exactly the keys of the well-formed records. -/
theorem restoreState_skips_malformed (results : List (String × String))
    (unmarshal : String → Option ShardRec) :
    restoreState (Except.ok results) unmarshal =
      Except.ok (restoreLoop unmarshal results []) ∧
    ∀ k, k ∈ (restoreLoop unmarshal results []).map Prod.fst ↔
      ∃ p ∈ results, ∃ s, unmarshal p.2 = some s ∧ s.key = k := by
  refine ⟨rfl, fun k => ?_⟩
  rw [restoreLoop_keys]
  simp

/-- C10: Upgrade with a sequential mount and a non-empty initial
transient path whose stat fails succeeds anyway, ignoring the supplied
path: the upgrader starts with no transient, and in the non-passthrough
case the first Fetch runs a refetch. -/
theorem upgrade_ignores_missing_initial (info : MountInfo)
    (rootdir : Option GoPath) (key : String) (p : GoPath)
    (fs : GoPath → Bool) (hseq : info.accessSequential = true)
    (hstat : fs p = false) :
    Upgrade info rootdir key (some p) fs =
      Except.ok
        { rootdir := rootdir.getD osTempDir, key := key,
          passthrough := info.accessSeek && info.accessRandom,
          transient := none, onceFired := false } ∧
    ((info.accessSeek && info.accessRandom) = false →
      ∀ (fs2 : GoPath → Bool) (ro : Except Err GoPath),
        (Fetch fs2 ro
          { rootdir := rootdir.getD osTempDir, key := key,
            passthrough := false, transient := none,
            onceFired := false }).refetchRan = true) := by
  obtain ⟨seq, seek, rand⟩ := info
  simp only [MountInfo.accessSequential] at hseq
  subst hseq
  constructor
  · cases seek <;> cases rand <;> cases rootdir <;>
      simp [Upgrade, hstat, Option.getD]
  · intro hpt fs2 ro
    cases ro <;> rfl

/-- C10 witness: a concrete sequential-only mount with a missing
initial path constructs an upgrader with no transient whose first
Fetch runs a refetch. -/
theorem upgrade_ignores_missing_initial_witness :
    Upgrade seqMount (some ⟨true, ["r"]⟩) "k" (some ⟨true, ["x"]⟩)
        (fun _ => false) =
      Except.ok ⟨⟨true, ["r"]⟩, "k", false, none, false⟩ ∧
    (Fetch (fun _ => false) (Except.error "e")
      ⟨⟨true, ["r"]⟩, "k", false, none, false⟩).refetchRan = true := by
  have h := upgrade_ignores_missing_initial seqMount (some ⟨true, ["r"]⟩)
    "k" ⟨true, ["x"]⟩ (fun _ => false) rfl rfl
  exact ⟨h.1, h.2 rfl (fun _ => false) (Except.error "e")⟩

/-- C3 failing input: the tracked transient c/d lies outside the root
directory a/b, yet filepath.Rel succeeds on the two absolute paths, so
DeleteTransient removes the file; and when removal fails the error is
returned while the internal state is still cleared. -/
theorem deleteTransient_removes_outside_root :
    isUnderRoot strayUpgrader.rootdir ⟨true, ["c", "d"]⟩ = false ∧
    relFails strayUpgrader.rootdir ⟨true, ["c", "d"]⟩ = false ∧
    (DeleteTransient false strayUpgrader).removedPath =
      some ⟨true, ["c", "d"]⟩ ∧
    (DeleteTransient false strayUpgrader).next.transient = none ∧
    (DeleteTransient true strayUpgrader).removedPath =
      some ⟨true, ["c", "d"]⟩ ∧
    (DeleteTransient true strayUpgrader).retErr = true ∧
    (DeleteTransient true strayUpgrader).next.transient = none := by
  decide

/-- C2 failing input: a first Fetch whose refetch fails leaves the
fired latch installed, so the next Fetch performs no refetch at all,
even though its refetch would now succeed, and instead fails opening
the empty transient path. -/
theorem fetch_failed_refetch_wedges_latch :
    wedgeStep1.res = FetchRes.fetchFailed "no route" ∧
    wedgeStep1.refetchRan = true ∧
    wedgeStep1.next.onceFired = true ∧
    wedgeStep1.next.transient = none ∧
    wedgeStep2.refetchRan = false ∧
    wedgeStep2.res = FetchRes.openErr none ∧
    wedgeStep2.next = wedgeStep1.next := by
  decide

/-- C6 counterexample: with a fresh key and a mount lacking sequential
access, RegisterShard returns the upgrade error synchronously, which is
neither ShardExists nor a successful enqueue. -/
theorem registerShard_upgrade_error_counterexample :
    RegisterShard [] "k1" nonSeqMount (some ⟨true, ["t"]⟩) none
        (fun _ => false) =
      Except.error
        (ApiErr.upgradeFailed
          "underlying mount must support sequential access") ∧
    RegisterShard [] "k1" nonSeqMount (some ⟨true, ["t"]⟩) none
        (fun _ => false) ≠
      Except.error ApiErr.shardExists ∧
    "k1" ∉ ([] : List String) := by
  refine ⟨rfl, fun h => ?_, by simp⟩
  exact ApiErr.noConfusion (Except.error.inj h)

/-- C6 amended: RegisterShard rejects duplicate keys with ShardExists
and returns the upgrade error when wrapping the mount fails; Acquire,
Recover and Destroy reject unknown keys with ShardUnknown; in every
remaining case the call queues exactly one task of the matching
operation and returns no error. -/
theorem api_sync_validation (catalog : List String) (key : String)
    (mnt : MountInfo) (td et : Option GoPath) (fs : GoPath → Bool) :
    (key ∈ catalog →
      RegisterShard catalog key mnt td et fs = Except.error ApiErr.shardExists) ∧
    (key ∉ catalog → ∀ e, Upgrade mnt td key et fs = Except.error e →
      RegisterShard catalog key mnt td et fs =
        Except.error (ApiErr.upgradeFailed e)) ∧
    (key ∉ catalog → ∀ u, Upgrade mnt td key et fs = Except.ok u →
      RegisterShard catalog key mnt td et fs =
        Except.ok [OpType.opShardRegister]) ∧
    (key ∉ catalog →
      AcquireShard catalog key = Except.error ApiErr.shardUnknown ∧
      RecoverShard catalog key = Except.error ApiErr.shardUnknown ∧
      DestroyShard catalog key = Except.error ApiErr.shardUnknown) ∧
    (key ∈ catalog →
      AcquireShard catalog key = Except.ok [OpType.opShardAcquire] ∧
      RecoverShard catalog key = Except.ok [OpType.opShardRecover] ∧
      DestroyShard catalog key = Except.ok [OpType.opShardDestroy]) := by
  refine ⟨fun h => ?_, fun h e he => ?_, fun h u hu => ?_, fun h => ?_,
    fun h => ?_⟩
  · simp [RegisterShard, h]
  · simp [RegisterShard, h, he]
  · simp [RegisterShard, h, hu]
  · simp [AcquireShard, RecoverShard, DestroyShard, h]
  · simp [AcquireShard, RecoverShard, DestroyShard, h]

/-- Invariant holds in the start state. -/
theorem onceInv_init : OnceInv onceInit := by
  refine ⟨?_, ?_, ?_, ?_, ?_, ?_, ?_⟩ <;> simp [onceInit]

/-- Every scheduling step preserves the invariant. -/
theorem onceInv_step {s s2 : OnceSys} (h : OnceStep s s2) (inv : OnceInv s) :
    OnceInv s2 := by
  cases h with
  | openExisting i hst htr =>
      refine ⟨inv.firedSub, inv.countFired, inv.countUnfired, inv.curOnceEq,
        inv.transIff, ?_, ?_⟩
      · intro j oid hj
        rcases eq_or_ne j i with rfl | hne
        · simp only [Function.update_same] at hj
          exact CallerPC.noConfusion hj
        · simp only [Function.update_noteq hne] at hj
          exact inv.capZero j oid hj
      · intro j hj
        rcases eq_or_ne j i with rfl | hne
        · simp only [Function.update_same] at hj
          exact CallerPC.noConfusion hj
        · simp only [Function.update_noteq hne] at hj
          exact inv.doneFet j hj
  | captureOnce i hst htr =>
      have h0 : 0 ∉ s.fired := by
        intro hmem
        have := inv.transIff.mpr hmem
        rw [htr] at this
        cases this
      have hc : s.curOnce = 0 := by
        rw [inv.curOnceEq, inv.countUnfired h0]
      refine ⟨inv.firedSub, inv.countFired, inv.countUnfired, inv.curOnceEq,
        inv.transIff, ?_, ?_⟩
      · intro j oid hj
        rcases eq_or_ne j i with rfl | hne
        · simp only [Function.update_same] at hj
          injection hj with hj2
          rw [← hj2, hc]
        · simp only [Function.update_noteq hne] at hj
          exact inv.capZero j oid hj
      · intro j hj
        rcases eq_or_ne j i with rfl | hne
        · simp only [Function.update_same] at hj
          exact CallerPC.noConfusion hj
        · simp only [Function.update_noteq hne] at hj
          exact inv.doneFet j hj
  | onceRun i oid hcap hnot =>
      have hoid : oid = 0 := inv.capZero i oid hcap
      subst hoid
      have hr : s.refetches = 0 := inv.countUnfired hnot
      refine ⟨?_, ?_, ?_, ?_, ?_, ?_, ?_⟩
      · intro x hx
        rcases List.mem_cons.mp hx with rfl | hx2
        · rfl
        · exact inv.firedSub x hx2
      · intro _; simp [hr]
      · intro hno
        exact absurd (List.mem_cons_self 0 s.fired) hno
      · simp [inv.curOnceEq]
      · simp
      · intro j oid2 hj
        rcases eq_or_ne j i with rfl | hne
        · simp only [Function.update_same] at hj
          exact CallerPC.noConfusion hj
        · simp only [Function.update_noteq hne] at hj
          exact inv.capZero j oid2 hj
      · intro j _
        exact List.mem_cons_self 0 s.fired
  | onceSkip i oid hcap hmem =>
      have hoid : oid = 0 := inv.capZero i oid hcap
      subst hoid
      refine ⟨inv.firedSub, inv.countFired, inv.countUnfired, inv.curOnceEq,
        inv.transIff, ?_, ?_⟩
      · intro j oid2 hj
        rcases eq_or_ne j i with rfl | hne
        · simp only [Function.update_same] at hj
          exact CallerPC.noConfusion hj
        · simp only [Function.update_noteq hne] at hj
          exact inv.capZero j oid2 hj
      · intro j hj
        rcases eq_or_ne j i with rfl | hne
        · exact hmem
        · simp only [Function.update_noteq hne] at hj
          exact inv.doneFet j hj

/-- Invariant holds in every reachable state. -/
theorem onceInv_reach {s : OnceSys} (h : OnceReach s) : OnceInv s := by
  have h2 : Relation.ReflTransGen OnceStep onceInit s := h
  clear h
  induction h2 with
  | refl => exact onceInv_init
  | tail _ hbc ih => exact onceInv_step hbc ih

/-- C8: in every reachable interleaving of concurrent Fetch calls on an
upgrader whose transient is missing, at most one refetch of the
underlying mount runs; and whenever some caller that raced on the latch
has finished its Do phase, exactly one refetch has run and the
transient it then opens is present. -/
theorem concurrent_fetch_single_refetch (s : OnceSys) (h : OnceReach s) :
    s.refetches ≤ 1 ∧
    ∀ i, s.callers i = CallerPC.doneFetched →
      s.refetches = 1 ∧ s.transientPresent = true := by
  have inv := onceInv_reach h
  refine ⟨?_, fun i hi => ?_⟩
  · by_cases h0 : 0 ∈ s.fired
    · exact le_of_eq (inv.countFired h0)
    · rw [inv.countUnfired h0]; exact Nat.zero_le 1
  · have h0 := inv.doneFet i hi
    exact ⟨inv.countFired h0, inv.transIff.mpr h0⟩

/-- C8 witness: the two-caller schedule in which both find the
transient missing performs exactly one refetch. -/
theorem concurrent_fetch_single_refetch_witness :
    onceDemo4.refetches = 1 ∧ onceDemo4.transientPresent = true := by
  have r1 : OnceStep onceInit onceDemo1 :=
    OnceStep.captureOnce onceInit 0 rfl rfl
  have r2 : OnceStep onceDemo1 onceDemo2 :=
    OnceStep.captureOnce onceDemo1 1 (by decide) rfl
  have r3 : OnceStep onceDemo2 onceDemo3 :=
    OnceStep.onceRun onceDemo2 0 0 (by decide) (by decide)
  have r4 : OnceStep onceDemo3 onceDemo4 :=
    OnceStep.onceSkip onceDemo3 1 0 (by decide) (by decide)
  have hreach : OnceReach onceDemo4 :=
    Relation.ReflTransGen.tail
      (Relation.ReflTransGen.tail
        (Relation.ReflTransGen.tail
          (Relation.ReflTransGen.tail Relation.ReflTransGen.refl r1) r2) r3) r4
  exact (concurrent_fetch_single_refetch onceDemo4 hreach).2 1 (by decide)

/-- C6 witness: concrete duplicate registration, unknown acquire, and
successful destroy enqueue. -/
theorem api_sync_validation_witness :
    RegisterShard ["k1"] "k1" seqMount none none (fun _ => false) =
      Except.error ApiErr.shardExists ∧
    AcquireShard ["k1"] "k2" = Except.error ApiErr.shardUnknown ∧
    DestroyShard ["k1"] "k1" = Except.ok [OpType.opShardDestroy] :=
  ⟨(api_sync_validation ["k1"] "k1" seqMount none none
      (fun _ => false)).1 (by decide),
   ((api_sync_validation ["k1"] "k2" seqMount none none
      (fun _ => false)).2.2.2.1 (by decide)).1,
   ((api_sync_validation ["k1"] "k1" seqMount none none
      (fun _ => false)).2.2.2.2 (by decide)).2.2⟩

end Dagstore
